import Mathlib

/-!
Verification of the ghost (self-play) trainer of this repository,
a shallow embedding of mlagents/trainers/ghost/trainer.py.

The controller state below carries exactly the `GhostTrainer` fields that the
claims are about, the operations are direct translations of the corresponding
Python methods (source lines are given on every definition), and the theorems
at the end of the file settle the spec's testable properties.

Modelling conventions:
* Python floats become real numbers; `pow(10, x)` is real exponentiation.
* Python lists become `List`; `l[i] = v` becomes `List.set`, reading becomes
  `List.getD` (all claim theorems carry the in-bounds hypotheses under which
  the two agree with Python indexing).
* Queue objects are represented by their `behavior_id`; the controller only
  ever stores queues and matches on their identity.  The contents available on
  the external trajectory queues during one `advance` call are passed to
  `advance_trajectory_phase` as an explicit list of `Option Trajectory`
  (`get_nowait` results, `none` for an empty queue).
* Randomness (`np.random.uniform()`, `np.random.randint`) is passed in as
  explicit draw data (`SwapDraw`); theorems quantify over all draws, with the
  hypotheses `0 ≤ u < 1` that `np.random.uniform` guarantees.
* Calls delegated to the wrapped trainer are recorded as a `Bool` output
  (`true` when the operation was forwarded to the wrapped trainer).
* `Option String` models Python's `str`-or-`None`; `pyFalsy` is Python's
  truth test `not x`, which is true both for `None` and for the empty string.
-/

namespace MLAgents

/-- Constant for rating changes, trainer.py line 242 (`K = 1`). -/
def K : ℝ := 1

/-- Translation of `compute_elo_rating_changes` (trainer.py lines 245-256). -/
noncomputable def compute_elo_rating_changes (rating1 rating2 : ℝ) (result : String) : ℝ :=
  let r1 := (10 : ℝ) ^ (rating1 / 400)
  let r2 := (10 : ℝ) ^ (rating2 / 400)
  let summed := r1 + r2
  let e1 := r1 / summed
  let s1 : ℝ := if result = "win" then 1 else 0
  K * (s1 - e1)

/-- One step of a trajectory; only its reward is read by the ghost trainer. -/
structure AgentExperience where
  reward : ℝ

/-- A completed trajectory as consumed by `_process_trajectory` (lines 90-104). -/
structure Trajectory where
  steps : List AgentExperience
  done_reached : Bool
  max_step_reached : Bool

/-- The final step's reward, `trajectory.steps[-1].reward` (line 97).
Trajectories handed to the trainer are nonempty; the default is irrelevant
under the nonemptiness hypotheses of the theorems below. -/
noncomputable def final_reward (t : Trajectory) : ℝ :=
  (t.steps.getLastD { reward := 0 }).reward

/-- A policy as the ghost trainer sees it: an abstract weight bundle reachable
through `policy.tfvars.get_weights()` / `set_weights` (the weight type `W` is
abstract). -/
structure TFPolicy (W : Type) where
  weights : W

/-- The `GhostTrainer` fields relevant to the claims (assigned in `__init__`,
lines 39-66, and mutated by the methods below).  Queues are represented by
their `behavior_id`. -/
structure GhostState (W : Type) where
  window : Nat
  current_prob : ℝ
  steps_between_snapshots : Int
  policies : List (String × TFPolicy W)
  policy_snapshots : List (Option W)
  snapshot_counter : Nat
  learning_behavior_name : Option String
  current_policy_snapshot : Option W
  last_step : Int
  initial_elo : ℝ
  current_elo : ℝ
  policy_elos : List ℝ
  current_opponent : Int
  trajectory_queues : List String
  internal_trajectory_queues : List String
  policy_queues : List String
  internal_policy_queues : List String

/-- The state that `GhostTrainer.__init__` (lines 39-66) builds from the
self-play parameters `window`, `current_prob` and `snapshot_per`. -/
noncomputable def ghost_init_state (W : Type) (window : Nat) (current_prob : ℝ)
    (snapshot_per : Int) : GhostState W :=
  { window := window
    current_prob := current_prob
    steps_between_snapshots := snapshot_per
    policies := []
    policy_snapshots := List.replicate window none
    snapshot_counter := 0
    learning_behavior_name := none
    current_policy_snapshot := none
    last_step := 0
    initial_elo := 1200
    current_elo := 1200
    policy_elos := List.replicate window (1200 : ℝ)
    current_opponent := 0
    trajectory_queues := []
    internal_trajectory_queues := []
    policy_queues := []
    internal_policy_queues := [] }

/-- Construction with `Except` as the failure channel that Python exceptions
would use.  `__init__` (lines 26-66) contains no validation and no `raise` for
the self-play parameters, so construction always succeeds: every window
(including 0), every probability (including values outside the unit interval)
and every cadence (including non-positive ones) is accepted and stored
verbatim. -/
noncomputable def ghost_init (W : Type) (window : Nat) (current_prob : ℝ)
    (snapshot_per : Int) : Except String (GhostState W) :=
  Except.ok (ghost_init_state W window current_prob snapshot_per)

variable {W : Type}

/-- Python's truth test `not x` on a `str`-or-`None` value: `None` and the
empty string are falsy (used by `add_policy`, line 167). -/
def pyFalsy : Option String → Bool
  | none => true
  | some s => s == ""

/-- The loop `for i in range(n): l[i] = a` (lines 171-172). -/
def fillRange (l : List α) (n : Nat) (a : α) : List α :=
  (List.range n).foldl (fun acc i => acc.set i a) l

/-- The Elo step of `_process_trajectory` (lines 100-104), which is the spec's
`EloTracker.applyOutcome(opponentIndex, result)`:
`change = compute_elo_rating_changes(current_elo, policy_elos[i], result)`,
then `current_elo += change` and `policy_elos[i] -= change`. -/
noncomputable def applyOutcome (s : GhostState W) (opponentIndex : Nat)
    (result : String) : GhostState W :=
  let change := compute_elo_rating_changes s.current_elo
    (s.policy_elos.getD opponentIndex 0) result
  { s with
    current_elo := s.current_elo + change
    policy_elos := s.policy_elos.set opponentIndex
      (s.policy_elos.getD opponentIndex 0 - change) }

/-- Translation of `_process_trajectory` (lines 90-104). -/
noncomputable def process_trajectory (s : GhostState W) (t : Trajectory) :
    GhostState W :=
  if t.done_reached ∧ ¬t.max_step_reached ∧ s.current_opponent > -1 then
    let result := if final_reward t < 0 then "loss" else "win"
    applyOutcome s s.current_opponent.toNat result
  else s

/-- The trajectory-relay loop at the top of `advance` (lines 116-125): for each
pair of an external trajectory queue and its internal relay queue, dequeue at
most one trajectory (`incoming` holds the `get_nowait` results, `none` when
the queue is empty), forward it into the wrapped trainer's internal queue, and
run `_process_trajectory` on it.  The returned list records what was put on
the internal queues. -/
noncomputable def advance_trajectory_phase (s : GhostState W)
    (incoming : List (Option Trajectory)) :
    GhostState W × List (String × Trajectory) :=
  ((s.trajectory_queues.zip s.internal_trajectory_queues).zip incoming).foldl
    (fun acc qt =>
      match qt.2 with
      | some t => (process_trajectory acc.1 t, acc.2 ++ [(qt.1.2, t)])
      | none => acc)
    (s, [])

/-- Translation of `save_snapshot` (lines 179-184):
`policy_snapshots[snapshot_counter] = weights`;
`policy_elos[snapshot_counter] = current_elo`;
`snapshot_counter = (snapshot_counter + 1) % window`. -/
def save_snapshot (s : GhostState W) (policy : TFPolicy W) : GhostState W :=
  { s with
    policy_snapshots :=
      s.policy_snapshots.set s.snapshot_counter (some policy.weights)
    policy_elos := s.policy_elos.set s.snapshot_counter s.current_elo
    snapshot_counter := (s.snapshot_counter + 1) % s.window }

/-- One pair of random draws consumed by an iteration of the loop in
`swap_snapshots`: `u` for `np.random.uniform()` and `idx` for
`np.random.randint(len(policy_snapshots))` (theorems restrict them to the
ranges those generators produce). -/
structure SwapDraw where
  u : ℝ
  idx : Nat

/-- The choice one iteration of `swap_snapshots` makes for a policy queue:
skipped (the learning identity), a pool snapshot at an index, or the current
(live) snapshot. -/
inductive SwapChoice (W : Type) where
  | skipLearning : SwapChoice W
  | fromPool : Nat → Option W → SwapChoice W
  | fromCurrent : Option W → SwapChoice W

/-- The body of the loop in `swap_snapshots` (lines 187-208) for one policy
queue `behavior_id` and one pair of random draws: skip the learning identity;
otherwise with probability `1 - current_prob` pick the pool snapshot at a
random index (and record it as `current_opponent`), else pick the current
snapshot (and record the `-1` live sentinel).  The returned `SwapChoice` is
the snapshot pushed into that identity's policy and republished on its
queue. -/
noncomputable def swap_step (s : GhostState W) (d : SwapDraw)
    (behavior_id : String) : GhostState W × SwapChoice W :=
  if some behavior_id = s.learning_behavior_name then
    (s, SwapChoice.skipLearning)
  else if d.u < 1 - s.current_prob then
    ({ s with current_opponent := (d.idx : Int) },
      SwapChoice.fromPool d.idx (s.policy_snapshots.getD d.idx none))
  else
    ({ s with current_opponent := -1 },
      SwapChoice.fromCurrent s.current_policy_snapshot)

/-- Translation of `swap_snapshots` (lines 186-208): run `swap_step` over all
registered policy queues, consuming one pair of draws per queue. -/
noncomputable def swap_snapshots (s : GhostState W) (draws : List SwapDraw) :
    GhostState W :=
  (s.policy_queues.zip draws).foldl
    (fun acc p => (swap_step acc p.2 p.1).1) s

/-- The snapshot step at the end of `advance` (lines 142-145): if
`get_step - last_step > steps_between_snapshots`, then `save_snapshot` the
wrapped trainer's policy, set `last_step` to the current step and run
`swap_snapshots`. -/
noncomputable def advance_snapshot_phase (s : GhostState W) (step : Int)
    (trainer_policy : TFPolicy W) (draws : List SwapDraw) : GhostState W :=
  if step - s.last_step > s.steps_between_snapshots then
    let s1 := save_snapshot s trainer_policy
    let s2 := { s1 with last_step := step }
    swap_snapshots s2 draws
  else s

/-- Translation of `add_policy` (lines 159-174): always record the
identity-to-policy mapping; if `not self.learning_behavior_name` (Python
truthiness), capture the policy's weights as the current snapshot, fill every
pool slot with them, forward the registration to the wrapped trainer (the
`Bool` output) and make this identity the learning identity. -/
def add_policy (s : GhostState W) (name_behavior_id : String)
    (policy : TFPolicy W) : GhostState W × Bool :=
  let s1 := { s with policies := (name_behavior_id, policy) :: s.policies }
  if pyFalsy s1.learning_behavior_name then
    ({ s1 with
        current_policy_snapshot := some policy.weights
        policy_snapshots := fillRange s1.policy_snapshots s1.window
          (some policy.weights)
        learning_behavior_name := some name_behavior_id }, true)
  else (s1, false)

/-- Translation of `subscribe_trajectory_queue` (lines 226-237): only when the
queue's identity equals the learning identity is the queue recorded (the
superclass subscription) and an internal relay queue created and subscribed
with the wrapped trainer (the `Bool` output); otherwise nothing at all
happens. -/
def subscribe_trajectory_queue (s : GhostState W) (behavior_id : String) :
    GhostState W × Bool :=
  if some behavior_id = s.learning_behavior_name then
    ({ s with
        trajectory_queues := s.trajectory_queues ++ [behavior_id]
        internal_trajectory_queues :=
          s.internal_trajectory_queues ++ [behavior_id] }, true)
  else (s, false)

/-- Translation of `publish_policy_queue` (lines 210-224): always record the
external queue; only for the learning identity create an internal relay queue
and register it with the wrapped trainer (the `Bool` output). -/
def publish_policy_queue (s : GhostState W) (behavior_id : String) :
    GhostState W × Bool :=
  let s1 := { s with policy_queues := s.policy_queues ++ [behavior_id] }
  if some behavior_id = s1.learning_behavior_name then
    ({ s1 with
        internal_policy_queues := s1.internal_policy_queues ++ [behavior_id] },
      true)
  else (s1, false)

/-- Test fixture: behavior identity used in witnesses. -/
def bidA : String := "A"

/-- Test fixture: a second behavior identity used in witnesses. -/
def bidB : String := "B"

/-- Test fixture: the empty behavior identity (Python-falsy). -/
def bidEmpty : String := ""

/-- Test fixture for the C8 counterexample: a freshly constructed ghost
trainer with window 1. -/
noncomputable def c8_s0 : GhostState Nat := ghost_init_state Nat 1 0 1

/-- Test fixture for the C8 counterexample: the state after a first
registration under the empty identity. -/
noncomputable def c8_s1 : GhostState Nat := (add_policy c8_s0 bidEmpty ⟨7⟩).1

/-- Test fixture for the C8 counterexample: the state after a second
registration under identity "B". -/
noncomputable def c8_s2 : GhostState Nat := (add_policy c8_s1 bidB ⟨9⟩).1

/-- Test fixture for the C2 counterexample: a ghost trainer whose learning
identity is "A". -/
noncomputable def c2_s : GhostState Nat :=
  { ghost_init_state Nat 1 0 1 with learning_behavior_name := some bidA }

/-- Test fixture for the C2 counterexample: a completed trajectory of the
ghost identity "B". -/
noncomputable def c2_traj : Trajectory :=
  { steps := [{ reward := 1 }], done_reached := true, max_step_reached := false }

/-!
Helper lemmas about list writes and the fill loop.
-/

theorem getD_set_self {α : Type} (a d : α) :
    ∀ (l : List α) (i : Nat), i < l.length → (l.set i a).getD i d = a := by
  intro l
  induction l with
  | nil => intro i h; simp at h
  | cons x xs ih =>
    intro i h
    cases i with
    | zero => rfl
    | succ n =>
      have hn : n < xs.length := by simpa using Nat.lt_of_succ_lt_succ h
      simpa [List.getD_cons_succ] using ih n hn

theorem getD_set_ne {α : Type} (a d : α) :
    ∀ (l : List α) (i j : Nat), i ≠ j → (l.set i a).getD j d = l.getD j d := by
  intro l
  induction l with
  | nil => intro i j h; rfl
  | cons x xs ih =>
    intro i j h
    cases i with
    | zero =>
      cases j with
      | zero => exact absurd rfl h
      | succ m => rfl
    | succ n =>
      cases j with
      | zero => rfl
      | succ m =>
        have hnm : n ≠ m := by omega
        simpa [List.getD_cons_succ] using ih n m hnm

theorem fillRange_length {α : Type} (a : α) :
    ∀ (is : List Nat) (l : List α),
      (is.foldl (fun acc i => acc.set i a) l).length = l.length := by
  intro is
  induction is with
  | nil => intro l; rfl
  | cons i is ih =>
    intro l
    rw [List.foldl_cons, ih]
    exact List.length_set l i a

theorem fillRange_len {α : Type} (l : List α) (n : Nat) (a : α) :
    (fillRange l n a).length = l.length :=
  fillRange_length a (List.range n) l

theorem fillRange_succ {α : Type} (l : List α) (n : Nat) (a : α) :
    fillRange l (n + 1) a = (fillRange l n a).set n a := by
  unfold fillRange
  rw [List.range_succ, List.foldl_append]
  rfl

theorem fillRange_getD {α : Type} (l : List α) (a d : α) :
    ∀ (n i : Nat), i < n → i < l.length → (fillRange l n a).getD i d = a := by
  intro n
  induction n with
  | zero => intro i hi _; omega
  | succ n ih =>
    intro i hi hil
    rw [fillRange_succ]
    by_cases hin : i = n
    · subst hin
      exact getD_set_self a d _ i (by rw [fillRange_len]; exact hil)
    · rw [getD_set_ne a d _ n i (fun h => hin h.symm)]
      exact ih i (by omega) hil

/-!
Bounds on the Elo change, shared by several claims.
-/

theorem compute_elo_bounds (rating1 rating2 : ℝ) (result : String) :
    -1 < compute_elo_rating_changes rating1 rating2 result ∧
      compute_elo_rating_changes rating1 rating2 result < 1 ∧
      compute_elo_rating_changes rating1 rating2 result ≠ 0 := by
  have h1 : (0 : ℝ) < (10 : ℝ) ^ (rating1 / 400) :=
    Real.rpow_pos_of_pos (by norm_num) _
  have h2 : (0 : ℝ) < (10 : ℝ) ^ (rating2 / 400) :=
    Real.rpow_pos_of_pos (by norm_num) _
  have hab : (0 : ℝ) < (10 : ℝ) ^ (rating1 / 400) + (10 : ℝ) ^ (rating2 / 400) := by
    linarith
  have he1 : (0 : ℝ) <
      (10 : ℝ) ^ (rating1 / 400) /
        ((10 : ℝ) ^ (rating1 / 400) + (10 : ℝ) ^ (rating2 / 400)) :=
    div_pos h1 hab
  have he2 : (10 : ℝ) ^ (rating1 / 400) /
      ((10 : ℝ) ^ (rating1 / 400) + (10 : ℝ) ^ (rating2 / 400)) < 1 :=
    (div_lt_one hab).mpr (by linarith)
  simp only [compute_elo_rating_changes, K]
  by_cases hr : result = "win"
  · rw [if_pos hr]
    refine ⟨by linarith, by linarith, ?_⟩
    intro h
    rw [one_mul, sub_eq_zero] at h
    rw [← h] at he2
    exact lt_irrefl _ he2
  · rw [if_neg hr]
    refine ⟨by linarith, by linarith, ?_⟩
    intro h
    rw [one_mul, sub_eq_zero] at h
    rw [← h] at he1
    exact lt_irrefl _ he1

/-!
Claim theorems.
-/

/-- Claim C10: for every pair of ratings and every result, the magnitude of
the Elo rating change computed by `compute_elo_rating_changes` is bounded by
the constant `K`. -/
theorem elo_change_bounded_by_K (rating1 rating2 : ℝ) (result : String) :
    |compute_elo_rating_changes rating1 rating2 result| ≤ K := by
  obtain ⟨hl, hu, _⟩ := compute_elo_bounds rating1 rating2 result
  have hK : K = 1 := rfl
  rw [hK, abs_le]
  exact ⟨by linarith, by linarith⟩

/-- Claim C1: for every in-range opponent index and every result, the Elo
step `applyOutcome` leaves `current_elo + policy_elos[i]` unchanged, and the
amount added to `current_elo` is exactly the amount subtracted from
`policy_elos[i]` (zero-sum transfer). -/
theorem elo_transfer_zero_sum (s : GhostState W) (i : Nat) (result : String)
    (h : i < s.policy_elos.length) :
    (applyOutcome s i result).current_elo +
        (applyOutcome s i result).policy_elos.getD i 0 =
      s.current_elo + s.policy_elos.getD i 0 ∧
    (applyOutcome s i result).current_elo - s.current_elo =
      s.policy_elos.getD i 0 - (applyOutcome s i result).policy_elos.getD i 0 := by
  have hset : ∀ v : ℝ, (s.policy_elos.set i v).getD i 0 = v :=
    fun v => getD_set_self v 0 s.policy_elos i h
  constructor
  · simp only [applyOutcome]
    rw [hset]
    ring
  · simp only [applyOutcome]
    rw [hset]
    ring

/-- Witness for C1 at window 2, opponent index 0, result "win". -/
theorem elo_transfer_zero_sum_witness :
    0 < (ghost_init_state Nat 2 0 1).policy_elos.length ∧
    (applyOutcome (ghost_init_state Nat 2 0 1) 0 "win").current_elo +
        (applyOutcome (ghost_init_state Nat 2 0 1) 0 "win").policy_elos.getD 0 0 =
      (ghost_init_state Nat 2 0 1).current_elo +
        (ghost_init_state Nat 2 0 1).policy_elos.getD 0 0 :=
  ⟨by simp [ghost_init_state],
    (elo_transfer_zero_sum (ghost_init_state Nat 2 0 1) 0 "win"
      (by simp [ghost_init_state])).1⟩

/-- Claim C4: `_process_trajectory` performs an Elo update if and only if the
trajectory reached a terminal state, was not truncated by the step limit, and
the current opponent is not the `-1` live/none sentinel; when it does, the
result is "win" exactly when the final step's reward is nonnegative and
"loss" otherwise, and the state genuinely changes; a trajectory with
`max_step_reached` produces no update regardless of reward sign; and no field
other than `current_elo` and `policy_elos` is ever touched. -/
theorem process_trajectory_elo_iff (s : GhostState W) (t : Trajectory)
    (hne : t.steps ≠ []) :
    ((t.done_reached ∧ ¬t.max_step_reached ∧ s.current_opponent > -1) →
        process_trajectory s t =
          applyOutcome s s.current_opponent.toNat
            (if 0 ≤ final_reward t then "win" else "loss") ∧
        process_trajectory s t ≠ s) ∧
    (¬(t.done_reached ∧ ¬t.max_step_reached ∧ s.current_opponent > -1) →
        process_trajectory s t = s) ∧
    (t.max_step_reached = true → process_trajectory s t = s) ∧
    (process_trajectory s t).policy_snapshots = s.policy_snapshots ∧
    (process_trajectory s t).snapshot_counter = s.snapshot_counter ∧
    (process_trajectory s t).learning_behavior_name = s.learning_behavior_name ∧
    (process_trajectory s t).current_policy_snapshot = s.current_policy_snapshot ∧
    (process_trajectory s t).last_step = s.last_step ∧
    (process_trajectory s t).current_opponent = s.current_opponent ∧
    (process_trajectory s t).policies = s.policies ∧
    (process_trajectory s t).window = s.window := by
  have hres : (if final_reward t < 0 then "loss" else "win") =
      (if 0 ≤ final_reward t then "win" else "loss") := by
    by_cases h : final_reward t < 0
    · rw [if_pos h, if_neg (not_le.mpr h)]
    · rw [if_neg h, if_pos (not_lt.mp h)]
  have hpos : (t.done_reached ∧ ¬t.max_step_reached ∧ s.current_opponent > -1) →
      process_trajectory s t =
        applyOutcome s s.current_opponent.toNat
          (if 0 ≤ final_reward t then "win" else "loss") := by
    intro hc
    simp only [process_trajectory]
    rw [if_pos hc, hres]
  have hneg : ¬(t.done_reached ∧ ¬t.max_step_reached ∧ s.current_opponent > -1) →
      process_trajectory s t = s := by
    intro hc
    simp only [process_trajectory]
    rw [if_neg hc]
  refine ⟨fun hc => ⟨hpos hc, ?_⟩, hneg, ?_, ?_, ?_, ?_, ?_, ?_, ?_, ?_, ?_⟩
  · rw [hpos hc]
    intro heq
    have helo := congrArg GhostState.current_elo heq
    simp only [applyOutcome] at helo
    have hzero : compute_elo_rating_changes s.current_elo
        (s.policy_elos.getD s.current_opponent.toNat 0)
        (if 0 ≤ final_reward t then "win" else "loss") = 0 := by linarith
    exact (compute_elo_bounds s.current_elo
      (s.policy_elos.getD s.current_opponent.toNat 0)
      (if 0 ≤ final_reward t then "win" else "loss")).2.2 hzero
  · intro hmax
    apply hneg
    intro hc
    exact hc.2.1 hmax
  all_goals
    by_cases hc : (t.done_reached ∧ ¬t.max_step_reached ∧ s.current_opponent > -1)
  all_goals first
    | (rw [hneg hc])
    | (rw [hpos hc]; simp only [applyOutcome])

/-- Witness for C4: the trajectory ends with reward -0.5, terminal and not
truncated, against opponent index 2; processing it is exactly the Elo step
with result "loss", and leaves the snapshot pool untouched. -/
theorem process_trajectory_elo_iff_witness :
    (({ steps := [{ reward := -0.5 }], done_reached := true,
          max_step_reached := false } : Trajectory).steps ≠ [] ∧
      (true = true ∧ ¬(false = true) ∧ (2 : Int) > -1)) ∧
    process_trajectory
        { ghost_init_state Nat 5 0 1 with current_opponent := 2 }
        { steps := [{ reward := -0.5 }], done_reached := true,
          max_step_reached := false } =
      applyOutcome { ghost_init_state Nat 5 0 1 with current_opponent := 2 }
        (Int.toNat 2)
        (if 0 ≤ final_reward
            { steps := [{ reward := -0.5 }], done_reached := true,
              max_step_reached := false } then "win" else "loss") := by
  refine ⟨⟨by simp, by simp, by decide⟩, ?_⟩
  exact (process_trajectory_elo_iff
    { ghost_init_state Nat 5 0 1 with current_opponent := 2 }
    { steps := [{ reward := -0.5 }], done_reached := true,
      max_step_reached := false }
    (by simp)).1 ⟨rfl, by simp, by decide⟩ |>.1

/-- Claim C2 is refuted by the code: subscribing a trajectory queue whose
identity ("B") differs from the learning identity ("A") has no effect at all —
the controller records nothing and does not observe the queue, so a
trajectory waiting on that queue is never processed for Elo purposes (the
advance relay loop processes nothing and forwards nothing). -/
theorem subscribe_ghost_queue_counterexample :
    subscribe_trajectory_queue c2_s bidB = (c2_s, false) ∧
    (subscribe_trajectory_queue c2_s bidB).1.trajectory_queues = [] ∧
    advance_trajectory_phase (subscribe_trajectory_queue c2_s bidB).1
        [some c2_traj] =
      ((subscribe_trajectory_queue c2_s bidB).1, []) := by
  refine ⟨?_, rfl, rfl⟩
  show (if some bidB = c2_s.learning_behavior_name then _ else _) = _
  rw [if_neg (by decide)]

/-- Claim C2, amended: subscribing a trajectory queue whose identity is not
the learning identity is a complete no-op — the queue is neither relayed to
the wrapped trainer nor recorded for observation (so its trajectories are
never seen, for Elo or anything else); only a queue whose identity equals the
learning identity is subscribed, and that one is both recorded for
observation and relayed to the wrapped trainer. -/
theorem subscribe_trajectory_queue_filters (s : GhostState W)
    (behavior_id : String) :
    (¬some behavior_id = s.learning_behavior_name →
        subscribe_trajectory_queue s behavior_id = (s, false)) ∧
    (some behavior_id = s.learning_behavior_name →
        subscribe_trajectory_queue s behavior_id =
          ({ s with
              trajectory_queues := s.trajectory_queues ++ [behavior_id]
              internal_trajectory_queues :=
                s.internal_trajectory_queues ++ [behavior_id] }, true)) := by
  constructor
  · intro h
    simp only [subscribe_trajectory_queue]
    rw [if_neg h]
  · intro h
    simp only [subscribe_trajectory_queue]
    rw [if_pos h]

/-- Witness for C2 (amended), on the learning-identity side. -/
theorem subscribe_trajectory_queue_filters_witness :
    some bidA = c2_s.learning_behavior_name ∧
    subscribe_trajectory_queue c2_s bidA =
      ({ c2_s with
          trajectory_queues := c2_s.trajectory_queues ++ [bidA]
          internal_trajectory_queues :=
            c2_s.internal_trajectory_queues ++ [bidA] }, true) :=
  ⟨rfl, (subscribe_trajectory_queue_filters c2_s bidA).2 rfl⟩

/-- Claim C3 is refuted by the code: a configuration violating all three
validity conditions at once (window 0, probability 2 outside the unit
interval, cadence -5) is accepted by construction, which succeeds and stores
the invalid values verbatim instead of failing fast. -/
theorem ghost_init_counterexample :
    ((0 : Nat) ≤ 0 ∧ ¬((2 : ℝ) ≤ 1) ∧ (-5 : Int) ≤ 0) ∧
    ghost_init Nat 0 2 (-5) = Except.ok (ghost_init_state Nat 0 2 (-5)) ∧
    (ghost_init_state Nat 0 2 (-5)).window = 0 ∧
    (ghost_init_state Nat 0 2 (-5)).current_prob = 2 ∧
    (ghost_init_state Nat 0 2 (-5)).steps_between_snapshots = -5 :=
  ⟨⟨le_refl 0, by norm_num, by decide⟩, rfl, rfl, rfl, rfl⟩

/-- Claim C3, amended: `__init__` performs no validation — construction
succeeds for every window, probability and cadence, storing the configured
values verbatim; misconfiguration can only surface later, during scheduling.
 -/
theorem ghost_init_no_validation (window : Nat) (current_prob : ℝ)
    (snapshot_per : Int) :
    ∃ s : GhostState W, ghost_init W window current_prob snapshot_per =
        Except.ok s ∧
      s.window = window ∧ s.current_prob = current_prob ∧
      s.steps_between_snapshots = snapshot_per :=
  ⟨ghost_init_state W window current_prob snapshot_per, rfl, rfl, rfl, rfl⟩

/-- Claim C7: on the first policy registration (learning identity still
unset), that identity becomes the learning identity, every pool slot is
filled with the policy's captured weights (so sampling any pool index
afterwards returns them), the live snapshot is set to those weights, and the
registration is forwarded to the wrapped trainer. -/
theorem add_policy_first_bootstrap (s : GhostState W) (behavior_id : String)
    (policy : TFPolicy W) (hnone : s.learning_behavior_name = none)
    (hlen : s.policy_snapshots.length = s.window) :
    (add_policy s behavior_id policy).2 = true ∧
    (add_policy s behavior_id policy).1.learning_behavior_name =
      some behavior_id ∧
    (add_policy s behavior_id policy).1.current_policy_snapshot =
      some policy.weights ∧
    (add_policy s behavior_id policy).1.window = s.window ∧
    ∀ i : Nat, i < s.window →
      (add_policy s behavior_id policy).1.policy_snapshots.getD i none =
        some policy.weights := by
  have hcond : pyFalsy
      ({ s with policies := (behavior_id, policy) :: s.policies } :
        GhostState W).learning_behavior_name = true := by
    show pyFalsy s.learning_behavior_name = true
    rw [hnone]
    rfl
  simp only [add_policy]
  rw [if_pos hcond]
  refine ⟨rfl, rfl, rfl, rfl, ?_⟩
  intro i hi
  exact fillRange_getD s.policy_snapshots (some policy.weights) none s.window i
    hi (by rw [hlen]; exact hi)

/-- Witness for C7 at window 3: after registering "A" first with weights 7,
slot 2 of the pool holds weights 7 and "A" is learning. -/
theorem add_policy_first_bootstrap_witness :
    ((ghost_init_state Nat 3 0 1).learning_behavior_name = none ∧
      (ghost_init_state Nat 3 0 1).policy_snapshots.length =
        (ghost_init_state Nat 3 0 1).window) ∧
    (add_policy (ghost_init_state Nat 3 0 1) bidA ⟨7⟩).2 = true ∧
    (add_policy (ghost_init_state Nat 3 0 1) bidA ⟨7⟩).1.learning_behavior_name =
      some bidA ∧
    (add_policy (ghost_init_state Nat 3 0 1) bidA
        ⟨7⟩).1.policy_snapshots.getD 2 none = some 7 := by
  have h := add_policy_first_bootstrap (ghost_init_state Nat 3 0 1) bidA ⟨7⟩
    rfl (by simp [ghost_init_state])
  exact ⟨⟨rfl, by simp [ghost_init_state]⟩, h.1, h.2.1, h.2.2.2.2 2 (by decide)⟩

/-- Claim C8 is refuted by the code: the first-registration test is Python
truthiness (`if not self.learning_behavior_name`), which also treats the
empty string as unset.  After a first registration under the empty identity
(weights 7), a second registration under "B" (weights 9) re-enters the
bootstrap branch: it changes the learning identity from "" to "B", rewrites
the whole snapshot pool and the live snapshot with weights 9, and forwards
the registration to the wrapped trainer a second time. -/
theorem add_policy_empty_name_counterexample :
    c8_s1.learning_behavior_name = some bidEmpty ∧
    c8_s2.learning_behavior_name = some bidB ∧
    c8_s2.learning_behavior_name ≠ c8_s1.learning_behavior_name ∧
    (add_policy c8_s1 bidB ⟨9⟩).2 = true ∧
    c8_s1.policy_snapshots = [some 7] ∧
    c8_s2.policy_snapshots = [some 9] ∧
    c8_s2.current_policy_snapshot = some 9 := by
  refine ⟨rfl, rfl, by decide, rfl, ?_, ?_, rfl⟩
  · show fillRange [none] 1 (some 7) = [some 7]
    rfl
  · show fillRange (fillRange [none] 1 (some 7)) 1 (some 9) = [some 9]
    rfl

/-- Claim C8, amended: provided the learning identity is a non-empty string
(the code tests Python truthiness, under which an empty-string first identity
counts as unset and is re-bound by the next registration), any later
registration only records the identity-to-policy mapping: the learning
identity, the snapshot pool, the live snapshot and every other field are
unchanged, and nothing is forwarded to the wrapped trainer. -/
theorem add_policy_later_frame (s : GhostState W) (behavior_id : String)
    (policy : TFPolicy W) (h : pyFalsy s.learning_behavior_name = false) :
    add_policy s behavior_id policy =
      ({ s with policies := (behavior_id, policy) :: s.policies }, false) := by
  have hcond : ¬pyFalsy
      ({ s with policies := (behavior_id, policy) :: s.policies } :
        GhostState W).learning_behavior_name = true := by
    show ¬pyFalsy s.learning_behavior_name = true
    rw [h]
    simp
  simp only [add_policy]
  rw [if_neg hcond]

/-- Witness for C8 (amended): with learning identity "A", registering "B"
only extends the policies mapping and is not forwarded. -/
theorem add_policy_later_frame_witness :
    pyFalsy ({ ghost_init_state Nat 1 0 1 with
        learning_behavior_name := some bidA } :
      GhostState Nat).learning_behavior_name = false ∧
    add_policy ({ ghost_init_state Nat 1 0 1 with
        learning_behavior_name := some bidA }) bidB ⟨5⟩ =
      ({ ({ ghost_init_state Nat 1 0 1 with
            learning_behavior_name := some bidA } : GhostState Nat) with
          policies := (bidB, ⟨5⟩) ::
            ({ ghost_init_state Nat 1 0 1 with
                learning_behavior_name := some bidA } :
              GhostState Nat).policies }, false) :=
  ⟨by decide,
    add_policy_later_frame
      ({ ghost_init_state Nat 1 0 1 with learning_behavior_name := some bidA })
      bidB ⟨5⟩ (by decide)⟩

/-- Claim C9: in the scheduler body, for any non-learning identity and any
draws `np.random.uniform` and `np.random.randint` can produce, with
`current_prob = 1.0` the current (live) snapshot is always selected and the
`-1` live tag recorded; with `current_prob = 0.0` the live snapshot is never
selected — a pool snapshot is always chosen, its index recorded as the
current opponent, which is therefore never the live sentinel. -/
theorem swap_step_prob_extremes (s : GhostState W) (d : SwapDraw)
    (behavior_id : String)
    (hb : ¬some behavior_id = s.learning_behavior_name)
    (h0 : 0 ≤ d.u) (h1 : d.u < 1) :
    (s.current_prob = 1 →
        swap_step s d behavior_id =
          ({ s with current_opponent := -1 },
            SwapChoice.fromCurrent s.current_policy_snapshot)) ∧
    (s.current_prob = 0 →
        swap_step s d behavior_id =
          ({ s with current_opponent := (d.idx : Int) },
            SwapChoice.fromPool d.idx (s.policy_snapshots.getD d.idx none)) ∧
        (swap_step s d behavior_id).1.current_opponent ≠ -1) := by
  constructor
  · intro hp
    have hnot : ¬d.u < 1 - s.current_prob := by rw [hp]; simp; linarith
    simp only [swap_step]
    rw [if_neg hb, if_neg hnot]
  · intro hp
    have hlt : d.u < 1 - s.current_prob := by rw [hp]; simpa using h1
    have heq : swap_step s d behavior_id =
        ({ s with current_opponent := (d.idx : Int) },
          SwapChoice.fromPool d.idx (s.policy_snapshots.getD d.idx none)) := by
      simp only [swap_step]
      rw [if_neg hb, if_pos hlt]
    refine ⟨heq, ?_⟩
    rw [heq]
    show (d.idx : Int) ≠ -1
    omega

/-- Witness for C9: learning identity "A", probability 1, ghost identity "B",
draw u = 1/2, idx = 0 — the live snapshot is selected and the live tag
recorded. -/
theorem swap_step_prob_extremes_witness :
    (¬some bidB = ({ ghost_init_state Nat 2 1 1 with
          learning_behavior_name := some bidA } :
        GhostState Nat).learning_behavior_name ∧
      (0 : ℝ) ≤ (1 / 2 : ℝ) ∧ (1 / 2 : ℝ) < 1) ∧
    swap_step ({ ghost_init_state Nat 2 1 1 with
        learning_behavior_name := some bidA }) ⟨1 / 2, 0⟩ bidB =
      ({ ({ ghost_init_state Nat 2 1 1 with
            learning_behavior_name := some bidA } : GhostState Nat) with
          current_opponent := -1 },
        SwapChoice.fromCurrent
          ({ ghost_init_state Nat 2 1 1 with
              learning_behavior_name := some bidA } :
            GhostState Nat).current_policy_snapshot) :=
  ⟨⟨by decide, by norm_num, by norm_num⟩,
    (swap_step_prob_extremes
      ({ ghost_init_state Nat 2 1 1 with learning_behavior_name := some bidA })
      ⟨1 / 2, 0⟩ bidB (by decide) (by norm_num) (by norm_num)).1 rfl⟩

/-!
Preservation lemmas: one `swap_step` and a whole `swap_snapshots` pass touch
only `current_opponent` (plus the policy objects and queues outside the
modelled state), never the snapshot pool, the cursor, `last_step`,
`policy_elos`, the window or `current_elo`.
-/

theorem swap_step_preserves (s : GhostState W) (d : SwapDraw)
    (behavior_id : String) :
    (swap_step s d behavior_id).1.snapshot_counter = s.snapshot_counter ∧
    (swap_step s d behavior_id).1.policy_snapshots = s.policy_snapshots ∧
    (swap_step s d behavior_id).1.policy_elos = s.policy_elos ∧
    (swap_step s d behavior_id).1.last_step = s.last_step ∧
    (swap_step s d behavior_id).1.window = s.window ∧
    (swap_step s d behavior_id).1.current_elo = s.current_elo := by
  simp only [swap_step]
  split
  · exact ⟨rfl, rfl, rfl, rfl, rfl, rfl⟩
  · split
    · exact ⟨rfl, rfl, rfl, rfl, rfl, rfl⟩
    · exact ⟨rfl, rfl, rfl, rfl, rfl, rfl⟩

theorem swap_fold_preserves :
    ∀ (l : List (String × SwapDraw)) (s : GhostState W),
      (l.foldl (fun acc p => (swap_step acc p.2 p.1).1) s).snapshot_counter =
          s.snapshot_counter ∧
      (l.foldl (fun acc p => (swap_step acc p.2 p.1).1) s).policy_snapshots =
          s.policy_snapshots ∧
      (l.foldl (fun acc p => (swap_step acc p.2 p.1).1) s).policy_elos =
          s.policy_elos ∧
      (l.foldl (fun acc p => (swap_step acc p.2 p.1).1) s).last_step =
          s.last_step ∧
      (l.foldl (fun acc p => (swap_step acc p.2 p.1).1) s).window = s.window ∧
      (l.foldl (fun acc p => (swap_step acc p.2 p.1).1) s).current_elo =
          s.current_elo := by
  intro l
  induction l with
  | nil => intro s; exact ⟨rfl, rfl, rfl, rfl, rfl, rfl⟩
  | cons p l ih =>
    intro s
    rw [List.foldl_cons]
    obtain ⟨i1, i2, i3, i4, i5, i6⟩ := ih (swap_step s p.2 p.1).1
    obtain ⟨j1, j2, j3, j4, j5, j6⟩ := swap_step_preserves s p.2 p.1
    exact ⟨i1.trans j1, i2.trans j2, i3.trans j3, i4.trans j4, i5.trans j5,
      i6.trans j6⟩

theorem swap_snapshots_preserves (s : GhostState W) (draws : List SwapDraw) :
    (swap_snapshots s draws).snapshot_counter = s.snapshot_counter ∧
    (swap_snapshots s draws).policy_snapshots = s.policy_snapshots ∧
    (swap_snapshots s draws).policy_elos = s.policy_elos ∧
    (swap_snapshots s draws).last_step = s.last_step ∧
    (swap_snapshots s draws).window = s.window :=
  ⟨(swap_fold_preserves (s.policy_queues.zip draws) s).1,
    (swap_fold_preserves (s.policy_queues.zip draws) s).2.1,
    (swap_fold_preserves (s.policy_queues.zip draws) s).2.2.1,
    (swap_fold_preserves (s.policy_queues.zip draws) s).2.2.2.1,
    (swap_fold_preserves (s.policy_queues.zip draws) s).2.2.2.2.1⟩

/-- Claim C5: the advance cycle inserts a snapshot if and only if
`step - last_step > steps_between_snapshots`.  When it does, the result is
exactly one `save_snapshot` (one pool slot overwritten with the trainer
policy's weights, the Elo slot at the cursor overwritten with the current
learning rating, the cursor advanced by one modulo the window) followed by
setting `last_step` to the current step and by the scheduler's reassignment
pass; otherwise the state is completely unchanged. -/
theorem advance_snapshot_cadence (s : GhostState W) (step : Int)
    (trainer_policy : TFPolicy W) (draws : List SwapDraw) :
    (step - s.last_step > s.steps_between_snapshots →
        advance_snapshot_phase s step trainer_policy draws =
          swap_snapshots
            ({ save_snapshot s trainer_policy with last_step := step }) draws ∧
        (advance_snapshot_phase s step trainer_policy draws).policy_snapshots =
          s.policy_snapshots.set s.snapshot_counter
            (some trainer_policy.weights) ∧
        (advance_snapshot_phase s step trainer_policy draws).policy_elos =
          s.policy_elos.set s.snapshot_counter s.current_elo ∧
        (advance_snapshot_phase s step trainer_policy draws).snapshot_counter =
          (s.snapshot_counter + 1) % s.window ∧
        (advance_snapshot_phase s step trainer_policy draws).last_step =
          step) ∧
    (¬step - s.last_step > s.steps_between_snapshots →
        advance_snapshot_phase s step trainer_policy draws = s) := by
  constructor
  · intro hc
    have hphase : advance_snapshot_phase s step trainer_policy draws =
        swap_snapshots
          ({ save_snapshot s trainer_policy with last_step := step }) draws := by
      simp only [advance_snapshot_phase]
      rw [if_pos hc]
    obtain ⟨p1, p2, p3, p4, _⟩ := swap_snapshots_preserves
      ({ save_snapshot s trainer_policy with last_step := step }) draws
    refine ⟨hphase, ?_, ?_, ?_, ?_⟩
    · rw [hphase, p2]; rfl
    · rw [hphase, p3]; rfl
    · rw [hphase, p1]; rfl
    · rw [hphase, p4]
  · intro hc
    simp only [advance_snapshot_phase]
    rw [if_neg hc]

/-- Witness for C5, the spec scenario: window 5, cadence 100, no prior
insertion (`last_step = 0`, cursor 0), advancing at trainer step 101 —
exactly one insertion happens and the cursor moves from 0 to 1. -/
theorem advance_snapshot_cadence_witness :
    ((101 : Int) - (ghost_init_state Nat 5 (0.2) 100).last_step >
        (ghost_init_state Nat 5 (0.2) 100).steps_between_snapshots ∧
      (ghost_init_state Nat 5 (0.2) 100).snapshot_counter = 0) ∧
    (advance_snapshot_phase (ghost_init_state Nat 5 (0.2) 100) 101 ⟨3⟩
        []).snapshot_counter = 1 ∧
    (advance_snapshot_phase (ghost_init_state Nat 5 (0.2) 100) 101 ⟨3⟩
        []).last_step = 101 := by
  have h := (advance_snapshot_cadence (ghost_init_state Nat 5 (0.2) 100) 101
    ⟨3⟩ []).1 (by decide)
  refine ⟨⟨by decide, rfl⟩, ?_, h.2.2.2.2⟩
  rw [h.2.2.2.1]
  decide

/-!
Fold lemmas for repeated insertion into the snapshot pool.
-/

theorem foldl_save_window :
    ∀ (bs : List (TFPolicy W)) (s : GhostState W),
      (bs.foldl save_snapshot s).window = s.window := by
  intro bs
  induction bs with
  | nil => intro s; rfl
  | cons b bs ih =>
    intro s
    rw [List.foldl_cons]
    exact ih (save_snapshot s b)

theorem foldl_save_length :
    ∀ (bs : List (TFPolicy W)) (s : GhostState W),
      (bs.foldl save_snapshot s).policy_snapshots.length =
        s.policy_snapshots.length := by
  intro bs
  induction bs with
  | nil => intro s; rfl
  | cons b bs ih =>
    intro s
    rw [List.foldl_cons, ih (save_snapshot s b)]
    exact List.length_set s.policy_snapshots s.snapshot_counter
      (some b.weights)

theorem foldl_save_counter :
    ∀ (bs : List (TFPolicy W)) (s : GhostState W), 0 < s.window →
      s.snapshot_counter < s.window →
      (bs.foldl save_snapshot s).snapshot_counter =
        (s.snapshot_counter + bs.length) % s.window := by
  intro bs
  induction bs with
  | nil =>
    intro s _ hc
    simp [Nat.mod_eq_of_lt hc]
  | cons b bs ih =>
    intro s hw hc
    have hwin : (save_snapshot s b).window = s.window := rfl
    have hcnt : (save_snapshot s b).snapshot_counter =
        (s.snapshot_counter + 1) % s.window := rfl
    have hlt : (save_snapshot s b).snapshot_counter <
        (save_snapshot s b).window := by
      rw [hcnt, hwin]
      exact Nat.mod_lt _ hw
    rw [List.foldl_cons, ih (save_snapshot s b) (by rw [hwin]; exact hw) hlt,
      hwin, hcnt, Nat.mod_add_mod]
    congr 1
    simp only [List.length_cons]
    omega

/-- Claim C6: the snapshot pool is a FIFO ring of fixed size.  Starting from
cursor 0 with a pool of `window > 0` slots, each insertion writes exactly the
slot at the cursor, overwrites the Elo slot there, advances the cursor
circularly and never changes the pool's length; and after inserting
`window + 1` bundles in sequence, slot 0 holds the `(window+1)`-th inserted
bundle (the first was overwritten). -/
theorem snapshot_pool_fifo (s : GhostState W) (bs : List (TFPolicy W))
    (hw : 0 < s.window) (hc : s.snapshot_counter = 0)
    (hl : s.policy_snapshots.length = s.window)
    (hb : bs.length = s.window + 1) :
    (bs.foldl save_snapshot s).policy_snapshots.getD 0 none =
      bs.getLast?.map TFPolicy.weights ∧
    (bs.foldl save_snapshot s).policy_snapshots.length =
      s.policy_snapshots.length ∧
    (bs.foldl save_snapshot s).snapshot_counter =
      (s.snapshot_counter + bs.length) % s.window ∧
    ∀ (st : GhostState W) (p : TFPolicy W),
      (save_snapshot st p).policy_snapshots =
          st.policy_snapshots.set st.snapshot_counter (some p.weights) ∧
      (save_snapshot st p).policy_elos =
          st.policy_elos.set st.snapshot_counter st.current_elo ∧
      (save_snapshot st p).snapshot_counter =
          (st.snapshot_counter + 1) % st.window ∧
      (save_snapshot st p).policy_snapshots.length =
          st.policy_snapshots.length := by
  refine ⟨?_, foldl_save_length bs s,
    foldl_save_counter bs s hw (by rw [hc]; exact hw),
    fun st p => ⟨rfl, rfl, rfl, List.length_set _ _ _⟩⟩
  have hbs : bs ≠ [] := by
    intro h
    rw [h] at hb
    simp at hb
  have hlast : bs.getLast? = some (bs.getLast hbs) :=
    List.getLast?_eq_getLast_of_ne_nil hbs
  have hsplit : bs.dropLast ++ [bs.getLast hbs] = bs :=
    List.dropLast_append_getLast hbs
  rw [hlast]
  show (List.foldl save_snapshot s bs).policy_snapshots.getD 0 none =
    some (bs.getLast hbs).weights
  conv_lhs => rw [← hsplit]
  rw [List.foldl_append]
  have hmidw : (bs.dropLast.foldl save_snapshot s).window = s.window :=
    foldl_save_window bs.dropLast s
  have hmidlen : (bs.dropLast.foldl save_snapshot s).policy_snapshots.length =
      s.window := by
    rw [foldl_save_length bs.dropLast s]
    exact hl
  have hmidcnt : (bs.dropLast.foldl save_snapshot s).snapshot_counter = 0 := by
    rw [foldl_save_counter bs.dropLast s hw (by rw [hc]; exact hw), hc,
      List.length_dropLast, hb]
    simp [Nat.mod_self]
  show (save_snapshot (bs.dropLast.foldl save_snapshot s)
      (bs.getLast hbs)).policy_snapshots.getD 0 none =
    some (bs.getLast hbs).weights
  simp only [save_snapshot]
  rw [hmidcnt]
  exact getD_set_self (some (bs.getLast hbs).weights) none _ 0
    (by rw [hmidlen]; exact hw)

/-- Witness for C6 at window 2: inserting the three bundles 10, 20, 30 into a
fresh pool leaves slot 0 holding the third bundle, 30. -/
theorem snapshot_pool_fifo_witness :
    (0 < (ghost_init_state Nat 2 0 1).window ∧
      (ghost_init_state Nat 2 0 1).snapshot_counter = 0 ∧
      (ghost_init_state Nat 2 0 1).policy_snapshots.length =
        (ghost_init_state Nat 2 0 1).window ∧
      ([⟨10⟩, ⟨20⟩, ⟨30⟩] : List (TFPolicy Nat)).length =
        (ghost_init_state Nat 2 0 1).window + 1) ∧
    (([⟨10⟩, ⟨20⟩, ⟨30⟩] : List (TFPolicy Nat)).foldl save_snapshot
        (ghost_init_state Nat 2 0 1)).policy_snapshots.getD 0 none =
      some 30 := by
  have h := snapshot_pool_fifo (ghost_init_state Nat 2 0 1)
    ([⟨10⟩, ⟨20⟩, ⟨30⟩] : List (TFPolicy Nat)) (by decide) rfl
    (by simp [ghost_init_state]) (by decide)
  refine ⟨⟨by decide, rfl, by simp [ghost_init_state], by decide⟩, ?_⟩
  rw [h.1]
  rfl

end MLAgents
